import Mathlib

/-!
Shallow embedding of `src/cli/util/env_loader.rs`: an environment-overlay
manager that layers variables parsed from dot-env files on top of the
process environment, tracks per-file ownership, and restores or removes
variables when a file is unloaded.

Maps held by value (`HashMap<String, String>`, the process environment) are
modelled as functions `String → Option String`; the `HashMap<String,
HashSet<String>>` of per-file variable sets is modelled as an association
list so that `cleanup` can enumerate its keys; a `HashSet<String>` is
modelled as a duplicate-free list in insertion order.

The external parser (dotenvy) is modelled by its observable behaviour:
`from_filename` applies each parsed pair to the environment without
overwriting existing entries and reports success or failure, possibly after
applying a prefix of the pairs; `from_path_iter` yields a sequence of items,
each a parsed pair or a line-level parse error, or fails to open the file.
The two reads of the same path are kept independent, since the code performs
two separate filesystem accesses.
-/

abbrev EnvMap := String → Option String

/-- Point update of a string-valued map: models `env::set_var` and
`HashMap::insert` for the string-to-string maps. -/
def mapSet (m : EnvMap) (k v : String) : EnvMap :=
  fun q => if q = k then some v else m q

/-- Point removal from a string-valued map: models `env::remove_var` and
`HashMap::remove` for the string-to-string maps. -/
def mapDrop (m : EnvMap) (k : String) : EnvMap :=
  fun q => if q = k then none else m q

/-- The `file_variables: HashMap<String, HashSet<String>>` field, as an
association list from file path to the list of variable names it owns. -/
abbrev FileVars := List (String × List String)

/-- Lookup in the per-file ownership table (`HashMap::get`). -/
def alistGet (m : FileVars) (k : String) : Option (List String) :=
  (m.find? (fun kv => kv.1 == k)).map (fun kv => kv.2)

/-- Removal from the per-file ownership table (`HashMap::remove`). -/
def alistRemove (m : FileVars) (k : String) : FileVars :=
  m.filter (fun kv => kv.1 != k)

/-- Insertion into the per-file ownership table (`HashMap::insert`):
replaces any previous binding for the key. -/
def alistInsert (m : FileVars) (k : String) (v : List String) : FileVars :=
  alistRemove m k ++ [(k, v)]

/-- `HashSet::insert` on a duplicate-free list of variable names. -/
def hsInsert (s : List String) (k : String) : List String :=
  if k ∈ s then s else s ++ [k]

/-- The `EnvManagerInner` struct of the source. -/
structure EnvManagerInner where
  file_variables : FileVars
  loaded_variables : EnvMap
  original_env : EnvMap

/-- The manager state together with the ambient process environment it
mutates. The Rust code mutates `std::env` in place; the embedding threads
the environment explicitly. -/
structure MState where
  env : EnvMap
  inner : EnvManagerInner

/-- `EnvManagerInner::new`: captures the ambient environment as the
baseline and starts with empty tracking tables. -/
def EnvManagerInner.new (ambient : EnvMap) : EnvManagerInner :=
  { file_variables := []
    loaded_variables := fun _ => none
    original_env := ambient }

/-- The state right after the `OnceLock` initialises the singleton: the
baseline snapshot equals the ambient environment, nothing is tracked. -/
def initState (ambient : EnvMap) : MState :=
  { env := ambient, inner := EnvManagerInner.new ambient }

/-- Outcome of `dotenvy::from_filename` on a path: a full parse of the
file's pairs, a parse failure after applying a prefix of the pairs, or an
I/O failure (nothing applied). -/
inductive FilenameRead where
  | ok (items : List (String × String)) : FilenameRead
  | parseErr (pre : List (String × String)) : FilenameRead
  | ioErr : FilenameRead

/-- One item yielded by the `dotenvy::from_path_iter` iterator: a parsed
key/value pair or a line-level parse error. -/
inductive IterItem where
  | pair (key value : String) : IterItem
  | lineErr : IterItem

/-- Outcome of `dotenvy::from_path_iter`: an item sequence, or failure to
open the file. -/
inductive IterRead where
  | ok (items : List IterItem) : IterRead
  | ioErr : IterRead

/-- What the filesystem presents at one path: existence, and the outcomes
of the two dotenvy reads the code performs. -/
structure FileSpec where
  fexists : Bool
  filenameRead : FilenameRead
  iterRead : IterRead

abbrev FS := String → FileSpec

/-- A well-formed readable file holding exactly the pairs `l`: both dotenvy
reads see the same content. -/
def pairItems (l : List (String × String)) : List IterItem :=
  l.map (fun kv => IterItem.pair kv.1 kv.2)

/-- See `pairItems`. -/
def goodFile (l : List (String × String)) : FileSpec :=
  { fexists := true, filenameRead := FilenameRead.ok l, iterRead := IterRead.ok (pairItems l) }

/-- A path that does not exist (read outcomes are irrelevant). -/
def missingFile : FileSpec :=
  { fexists := false, filenameRead := FilenameRead.ioErr, iterRead := IterRead.ioErr }

/-- A path that exists but cannot be opened or read by the parser. -/
def unreadableFile : FileSpec :=
  { fexists := true, filenameRead := FilenameRead.ioErr, iterRead := IterRead.ioErr }

/-- `dotenvy::from_filename`'s environment effect: sets each parsed pair
only when the variable is not already present. -/
def applyNonOverriding (env : EnvMap) (items : List (String × String)) : EnvMap :=
  items.foldl (fun e kv => if (e kv.1).isSome then e else mapSet e kv.1 kv.2) env

/-- Body of the per-variable loop of `_unload_env_file_inner`: drop the
variable from `loaded_variables` first (as the source does), then restore
the baseline value if the baseline has the name, and otherwise remove the
variable only when its current value equals the `loaded_variables` entry
looked up after that removal (hence the empty-string default). -/
def unloadVarStep (s : MState) (var_name : String) : MState :=
  let inner1 : EnvManagerInner :=
    { s.inner with loaded_variables := mapDrop s.inner.loaded_variables var_name }
  match inner1.original_env var_name with
  | some original_value =>
      { env := mapSet s.env var_name original_value, inner := inner1 }
  | none =>
      match s.env var_name with
      | some current_value =>
          if current_value = ((inner1.loaded_variables var_name).getD "") then
            { env := mapDrop s.env var_name, inner := inner1 }
          else
            { env := s.env, inner := inner1 }
      | none => { env := s.env, inner := inner1 }

/-- `_unload_env_file_inner`: take the path's variable set out of
`file_variables` (no-op when absent) and process each owned variable. -/
def unloadInner (s : MState) (path_str : String) : MState :=
  match alistGet s.inner.file_variables path_str with
  | some vars =>
      let s1 : MState :=
        { s with inner :=
            { s.inner with
                file_variables := alistRemove s.inner.file_variables path_str } }
      vars.foldl unloadVarStep s1
  | none => s

/-- Accumulator of the `from_path_iter` loop in `load_env_file`:
the mutated state, `current_file_vars`, and `loaded_count`. -/
structure LoadLoop where
  st : MState
  current_file_vars : List String
  loaded_count : Nat

/-- One iteration of the `from_path_iter` loop: a parsed pair is written to
the environment, recorded in `current_file_vars` and `loaded_variables`,
and counted; a line-level error is logged and skipped. -/
def iterStep (path_str : String) (a : LoadLoop) (item : IterItem) : LoadLoop :=
  match item with
  | IterItem.pair key value =>
      { st :=
          { env := mapSet a.st.env key value
            inner :=
              { a.st.inner with
                  loaded_variables := mapSet a.st.inner.loaded_variables key path_str } }
        current_file_vars := hsInsert a.current_file_vars key
        loaded_count := a.loaded_count + 1 }
  | IterItem.lineErr => a

/-- `EnvManager::load_env_file`. Mirrors the source control flow: unload
the path's previous contribution, return `Ok 0` for a missing path, run
`from_filename` then `from_path_iter`, return a critical error when the
iterator cannot be obtained, and otherwise record the file's variable set
and return the loaded count. -/
def load_env_file (fs : FS) (path_str : String) (s0 : MState) :
    Except String Nat × MState :=
  let s := unloadInner s0 path_str
  if (fs path_str).fexists = false then
    (Except.ok 0,
      { s with inner :=
          { s.inner with
              file_variables := alistRemove s.inner.file_variables path_str } })
  else
    match (fs path_str).filenameRead with
    | FilenameRead.ok items1 =>
        let s1 : MState := { s with env := applyNonOverriding s.env items1 }
        match (fs path_str).iterRead with
        | IterRead.ok items2 =>
            let r := items2.foldl (iterStep path_str) ⟨s1, [], 0⟩
            (Except.ok r.loaded_count,
              { r.st with inner :=
                  { r.st.inner with
                      file_variables :=
                        alistInsert r.st.inner.file_variables path_str
                          r.current_file_vars } })
        | IterRead.ioErr =>
            (Except.error ("Failed to read " ++ path_str), s1)
    | FilenameRead.parseErr pre =>
        let s1 : MState := { s with env := applyNonOverriding s.env pre }
        (Except.ok 0,
          { s1 with inner :=
              { s1.inner with
                  file_variables := alistInsert s1.inner.file_variables path_str [] } })
    | FilenameRead.ioErr =>
        (Except.ok 0,
          { s with inner :=
              { s.inner with
                  file_variables := alistInsert s.inner.file_variables path_str [] } })

/-- `EnvManager::unload_env_file` (always returns `Ok(())`, so only the
state is modelled). -/
def unload_env_file (path_str : String) (s : MState) : MState :=
  unloadInner s path_str

/-- `EnvManager::reload_env_file`: delegates to `load_env_file`. -/
def reload_env_file (fs : FS) (path_str : String) (s : MState) :
    Except String Nat × MState :=
  load_env_file fs path_str s

/-- One iteration of the batch loop of `load_env_variables_from_env_files`:
a successful load adds its count to the total; a critical error is logged
and skipped, keeping the state the load left behind. -/
def batchStep (fs : FS) (acc : Nat × MState) (p : String) : Nat × MState :=
  match load_env_file fs p acc.2 with
  | (Except.ok count, s') => (acc.1 + count, s')
  | (Except.error _, s') => (acc.1, s')

/-- `EnvManager::load_env_variables_from_env_files`: `None` returns 0 at
once; otherwise the supplied paths are processed in reverse order. -/
def load_env_variables_from_env_files (fs : FS) (file_paths : Option (List String))
    (s : MState) : Nat × MState :=
  match file_paths with
  | none => (0, s)
  | some names => names.reverse.foldl (batchStep fs) (0, s)

/-- `EnvManager::cleanup`: snapshot the tracked paths, then unload each. -/
def cleanup (s : MState) : MState :=
  (s.inner.file_variables.map Prod.fst).foldl unloadInner s

/-- `EnvManager::get_variable_source`. -/
def get_variable_source (s : MState) (var_name : String) : Option String :=
  s.inner.loaded_variables var_name

/-- `EnvManager::is_managed_variable`. -/
def is_managed_variable (s : MState) (var_name : String) : Bool :=
  (s.inner.loaded_variables var_name).isSome

/-- `EnvManager::get_variables_from_file`. -/
def get_variables_from_file (s : MState) (path_str : String) : Option (List String) :=
  alistGet s.inner.file_variables path_str

/-- The mutating operations of the manager facade, for stating properties
quantified over every operation. -/
inductive MOp where
  | load (path : String) : MOp
  | unload (path : String) : MOp
  | reload (path : String) : MOp
  | batch (paths : Option (List String)) : MOp
  | clean : MOp

/-- State transition of one facade operation. -/
def applyOp (fs : FS) (op : MOp) (s : MState) : MState :=
  match op with
  | MOp.load p => (load_env_file fs p s).2
  | MOp.unload p => unload_env_file p s
  | MOp.reload p => (reload_env_file fs p s).2
  | MOp.batch ps => (load_env_variables_from_env_files fs ps s).2
  | MOp.clean => cleanup s

/-! ### Derived descriptions of the parser data, used to state properties -/

/-- Value of the first pair bound to `X` in a pair list (the binding that
`applyNonOverriding` can make stick). -/
def firstVal (l : List (String × String)) (X : String) : Option String :=
  match l with
  | [] => none
  | kv :: rest => if kv.1 = X then some kv.2 else firstVal rest X

/-- Value of the last pair bound to `X` among the iterator items (the
binding that the overriding `set_var` loop leaves in place). -/
def lastValue (X : String) : List IterItem → Option String
  | [] => none
  | IterItem.pair k v :: rest =>
      match lastValue X rest with
      | some w => some w
      | none => if k = X then some v else none
  | IterItem.lineErr :: rest => lastValue X rest

/-- Keys of the parsed pairs among the iterator items. -/
def pairKeys : List IterItem → List String
  | [] => []
  | IterItem.pair k _ :: rest => k :: pairKeys rest
  | IterItem.lineErr :: rest => pairKeys rest

/-- The `current_file_vars` set produced by the iterator loop. -/
def varsAfter (acc : List String) : List IterItem → List String
  | [] => acc
  | IterItem.pair k _ :: rest => varsAfter (hsInsert acc k) rest
  | IterItem.lineErr :: rest => varsAfter acc rest

/-- `loaded_count` contribution of the iterator items. -/
def countPairs : List IterItem → Nat
  | [] => 0
  | IterItem.pair _ _ :: rest => countPairs rest + 1
  | IterItem.lineErr :: rest => countPairs rest

/-- Final environment value of one variable after the per-variable unload
step processed it: baseline names are restored; other names are deleted
exactly when their live value is the empty string (the comparison in the
source reads the `loaded_variables` entry it just removed). -/
def restoreVal (origv curv : Option String) : Option String :=
  match origv with
  | some ov => some ov
  | none =>
      match curv with
      | some w => if w = "" then none else some w
      | none => none

/-- Value of the last pair bound to `X` in a pair list: the value a fully
successful load leaves in the environment for `X`. -/
def lastVal (l : List (String × String)) (X : String) : Option String :=
  match l with
  | [] => none
  | kv :: rest =>
      match lastVal rest X with
      | some v => some v
      | none => if kv.1 = X then some kv.2 else none

/-- State after loading each of the paths in order, regardless of per-file
results (the spec-side description of "the batch always completes"). -/
def stateAfterLoads (fs : FS) (paths : List String) (s : MState) : MState :=
  match paths with
  | [] => s
  | p :: rest => stateAfterLoads fs rest (load_env_file fs p s).2

/-- Sum of the counts of the successful loads along the same sequence;
a file whose load returns a critical error contributes zero. -/
def totalLoadedCount (fs : FS) (paths : List String) (s : MState) : Nat :=
  match paths with
  | [] => 0
  | p :: rest =>
      (match (load_env_file fs p s).1 with
        | Except.ok c => c
        | Except.error _ => 0) + totalLoadedCount fs rest (load_env_file fs p s).2

/-! ### Concrete fixtures used to instantiate the properties -/

/-- An ambient environment with no variables at all. -/
def emptyEnv : EnvMap := fun _ => none

/-- Filesystem with one readable file `cfg` defining `FOO=1`. -/
def fsFoo : FS := fun p => if p = "cfg" then goodFile [("FOO", "1")] else missingFile

/-- Filesystem on which every path is missing (models deleting `cfg`). -/
def fsGone : FS := fun _ => missingFile

/-- Filesystem with `f1` defining `A=1` and `f2` defining `B=2`. -/
def fsTwo : FS := fun p =>
  if p = "f1" then goodFile [("A", "1")]
  else if p = "f2" then goodFile [("B", "2")]
  else missingFile

/-- Filesystem with `fileA` and `fileB` both defining `X`, differently. -/
def fsAB : FS := fun p =>
  if p = "fileA" then goodFile [("X", "1")]
  else if p = "fileB" then goodFile [("X", "2")]
  else missingFile

/-- A baseline holding `X=orig` and nothing else. -/
def baseEnvX : EnvMap := fun k => if k = "X" then some "orig" else none

/-- Filesystem with one readable file `fx` defining `X=v1`. -/
def fsX : FS := fun p => if p = "fx" then goodFile [("X", "v1")] else missingFile

/-- Filesystem on which every path exists but cannot be read. -/
def fsU : FS := fun _ => unreadableFile

/-- A manager state owning `Y` (set to `b` by file `g`), with `Y` absent
from the baseline. -/
def sW : MState :=
  { env := fun k => if k = "Y" then some "b" else none
    inner :=
      { file_variables := [("g", ["Y"])]
        loaded_variables := fun k => if k = "Y" then some "g" else none
        original_env := fun _ => none } }

/-! ### Pointwise lemmas for the map primitives -/

theorem mapSet_self (m : EnvMap) (k v : String) : mapSet m k v k = some v := by
  simp [mapSet]

theorem mapSet_ne (m : EnvMap) (k v q : String) (h : q ≠ k) : mapSet m k v q = m q := by
  simp [mapSet, h]

theorem mapDrop_self (m : EnvMap) (k : String) : mapDrop m k k = none := by
  simp [mapDrop]

theorem mapDrop_ne (m : EnvMap) (k q : String) (h : q ≠ k) : mapDrop m k q = m q := by
  simp [mapDrop, h]

/-! ### Association-list lemmas for the per-file ownership table -/

theorem alistGet_nil (k : String) : alistGet [] k = none := rfl

theorem alistGet_cons (kv : String × List String) (l : FileVars) (q : String) :
    alistGet (kv :: l) q = if kv.1 = q then some kv.2 else alistGet l q := by
  by_cases h : kv.1 = q <;> simp [alistGet, List.find?_cons, h]

theorem alistRemove_cons (kv : String × List String) (l : FileVars) (k : String) :
    alistRemove (kv :: l) k =
      if kv.1 = k then alistRemove l k else kv :: alistRemove l k := by
  by_cases h : kv.1 = k <;> simp [alistRemove, List.filter_cons, h]

theorem alistGet_append (l1 l2 : FileVars) (q : String) :
    alistGet (l1 ++ l2) q =
      match alistGet l1 q with
      | some v => some v
      | none => alistGet l2 q := by
  induction l1 with
  | nil => simp [alistGet_nil]
  | cons kv rest ih =>
      by_cases h : kv.1 = q <;> simp [alistGet_cons, h, ih]

theorem alistGet_remove_self (m : FileVars) (k : String) :
    alistGet (alistRemove m k) k = none := by
  induction m with
  | nil => rfl
  | cons kv rest ih =>
      by_cases h : kv.1 = k
      · simpa [alistRemove_cons, h] using ih
      · simpa [alistRemove_cons, alistGet_cons, h] using ih

theorem alistGet_remove_ne (m : FileVars) (k q : String) (h : q ≠ k) :
    alistGet (alistRemove m k) q = alistGet m q := by
  have hk : k ≠ q := Ne.symm h
  induction m with
  | nil => rfl
  | cons kv rest ih =>
      by_cases h1 : kv.1 = k
      · simpa [alistRemove_cons, alistGet_cons, h1, hk] using ih
      · by_cases h2 : kv.1 = q
        · simp [alistRemove_cons, alistGet_cons, h1, h2, h]
        · simpa [alistRemove_cons, alistGet_cons, h1, h2] using ih

theorem alistRemove_remove_self (m : FileVars) (k : String) :
    alistRemove (alistRemove m k) k = alistRemove m k := by
  induction m with
  | nil => rfl
  | cons kv rest ih =>
      by_cases h : kv.1 = k
      · simpa [alistRemove_cons, h] using ih
      · simp [alistRemove_cons, h, ih]

theorem alistGet_insert_self (m : FileVars) (k : String) (v : List String) :
    alistGet (alistInsert m k v) k = some v := by
  simp [alistInsert, alistGet_append, alistGet_remove_self, alistGet_cons]

theorem alistGet_insert_ne (m : FileVars) (k q : String) (v : List String) (h : q ≠ k) :
    alistGet (alistInsert m k v) q = alistGet m q := by
  have hk : k ≠ q := Ne.symm h
  simp [alistInsert, alistGet_append, alistGet_remove_ne m k q h, alistGet_cons, hk,
    alistGet_nil]
  cases hg : alistGet m q <;> simp

theorem alistRemove_insert_self (m : FileVars) (k : String) (v : List String) :
    alistRemove (alistInsert m k v) k = alistRemove m k := by
  have h1 : alistRemove ([(k, v)] : FileVars) k = [] := by
    simp [alistRemove_cons, alistRemove]
  have h2 : alistRemove (alistRemove m k ++ [(k, v)]) k =
      alistRemove (alistRemove m k) k ++ alistRemove ([(k, v)] : FileVars) k := by
    simp [alistRemove, List.filter_append]
  simp [alistInsert, h2, h1, alistRemove_remove_self]

/-! ### Lemmas about the non-overriding pass of `from_filename` -/

theorem applyNonOverriding_cons (e : EnvMap) (kv : String × String)
    (rest : List (String × String)) :
    applyNonOverriding e (kv :: rest) =
      applyNonOverriding (if (e kv.1).isSome then e else mapSet e kv.1 kv.2) rest := rfl

theorem applyNonOverriding_some (e : EnvMap) (l : List (String × String)) (X w : String)
    (h : e X = some w) : applyNonOverriding e l X = some w := by
  induction l generalizing e with
  | nil => exact h
  | cons kv rest ih =>
      rw [applyNonOverriding_cons]
      by_cases hs : (e kv.1).isSome
      · rw [if_pos hs]
        exact ih e h
      · rw [if_neg hs]
        apply ih
        by_cases hx : X = kv.1
        · exfalso
          rw [hx] at h
          simp [h] at hs
        · rw [mapSet_ne e kv.1 kv.2 X hx]
          exact h

theorem applyNonOverriding_none (e : EnvMap) (l : List (String × String)) (X : String)
    (h : e X = none) : applyNonOverriding e l X = firstVal l X := by
  induction l generalizing e with
  | nil => simpa [applyNonOverriding, firstVal] using h
  | cons kv rest ih =>
      rw [applyNonOverriding_cons]
      by_cases hs : (e kv.1).isSome
      · rw [if_pos hs]
        have hne : kv.1 ≠ X := by
          intro hx
          rw [hx, h] at hs
          simp at hs
        rw [ih e h]
        simp [firstVal, hne]
      · rw [if_neg hs]
        by_cases hx : kv.1 = X
        · have hset : mapSet e kv.1 kv.2 X = some kv.2 := by
            rw [← hx]
            exact mapSet_self e kv.1 kv.2
          rw [applyNonOverriding_some _ rest X kv.2 hset]
          simp [firstVal, hx]
        · have hset : mapSet e kv.1 kv.2 X = none := by
            rw [mapSet_ne e kv.1 kv.2 X (fun hq => hx hq.symm)]
            exact h
          rw [ih _ hset]
          simp [firstVal, hx]

theorem applyNonOverriding_idem (e : EnvMap) (l : List (String × String)) :
    applyNonOverriding (applyNonOverriding e l) l = applyNonOverriding e l := by
  funext X
  cases he : e X with
  | some w =>
      have h1 : applyNonOverriding e l X = some w := applyNonOverriding_some e l X w he
      rw [applyNonOverriding_some _ l X w h1, h1]
  | none =>
      have h1 : applyNonOverriding e l X = firstVal l X := applyNonOverriding_none e l X he
      cases hf : firstVal l X with
      | some v =>
          have h2 : applyNonOverriding e l X = some v := h1.trans hf
          rw [applyNonOverriding_some _ l X v h2, h2]
      | none =>
          have h2 : applyNonOverriding e l X = none := h1.trans hf
          exact (applyNonOverriding_none _ l X h2).trans (hf.trans h2.symm)

/-! ### Characterisation of the per-variable unload step -/

theorem restoreVal_idem (o c : Option String) :
    restoreVal o (restoreVal o c) = restoreVal o c := by
  cases o with
  | some ov => rfl
  | none =>
      cases c with
      | none => rfl
      | some w =>
          by_cases hw : w = ""
          · simp [restoreVal, hw]
          · simp [restoreVal, hw]

theorem unloadVarStep_lv (s : MState) (y : String) :
    (unloadVarStep s y).inner.loaded_variables = mapDrop s.inner.loaded_variables y := by
  simp only [unloadVarStep]
  cases horig : s.inner.original_env y with
  | some ov => rfl
  | none =>
      cases henv : s.env y with
      | some w =>
          by_cases hw : w = ((mapDrop s.inner.loaded_variables y y).getD "")
          · simp [hw]
          · simp [hw]
      | none => rfl

theorem unloadVarStep_fv (s : MState) (y : String) :
    (unloadVarStep s y).inner.file_variables = s.inner.file_variables := by
  simp only [unloadVarStep]
  cases horig : s.inner.original_env y with
  | some ov => rfl
  | none =>
      cases henv : s.env y with
      | some w =>
          by_cases hw : w = ((mapDrop s.inner.loaded_variables y y).getD "")
          · simp [hw]
          · simp [hw]
      | none => rfl

theorem unloadVarStep_orig (s : MState) (y : String) :
    (unloadVarStep s y).inner.original_env = s.inner.original_env := by
  simp only [unloadVarStep]
  cases horig : s.inner.original_env y with
  | some ov => rfl
  | none =>
      cases henv : s.env y with
      | some w =>
          by_cases hw : w = ((mapDrop s.inner.loaded_variables y y).getD "")
          · simp [hw]
          · simp [hw]
      | none => rfl

theorem unloadVarStep_env (s : MState) (y q : String) :
    (unloadVarStep s y).env q =
      if q = y then restoreVal (s.inner.original_env y) (s.env y) else s.env q := by
  by_cases hq : q = y
  · subst hq
    rw [if_pos rfl]
    simp only [unloadVarStep]
    cases horig : s.inner.original_env q with
    | some ov => simp [restoreVal, horig, mapSet]
    | none =>
        cases henv : s.env q with
        | some w =>
            by_cases hw : w = ""
            · simp [horig, henv, hw, restoreVal, mapDrop]
            · simp [horig, henv, hw, restoreVal, mapDrop]
        | none => simp [horig, henv, restoreVal]
  · rw [if_neg hq]
    simp only [unloadVarStep]
    cases horig : s.inner.original_env y with
    | some ov => simp [mapSet, hq]
    | none =>
        cases henv : s.env y with
        | some w =>
            by_cases hw : w = ""
            · simp [horig, henv, hw, mapDrop, hq]
            · simp [horig, henv, hw, mapDrop]
        | none => simp [horig, henv]

/-! ### Characterisation of the unload loop and `_unload_env_file_inner` -/

theorem unloadFold_orig (vars : List String) (s : MState) :
    ((vars.foldl unloadVarStep s).inner.original_env) = s.inner.original_env := by
  induction vars generalizing s with
  | nil => rfl
  | cons y rest ih => rw [List.foldl_cons, ih, unloadVarStep_orig]

theorem unloadFold_fv (vars : List String) (s : MState) :
    ((vars.foldl unloadVarStep s).inner.file_variables) = s.inner.file_variables := by
  induction vars generalizing s with
  | nil => rfl
  | cons y rest ih => rw [List.foldl_cons, ih, unloadVarStep_fv]

theorem unloadFold_lv (vars : List String) (s : MState) (X : String) :
    ((vars.foldl unloadVarStep s).inner.loaded_variables) X =
      if X ∈ vars then none else s.inner.loaded_variables X := by
  induction vars generalizing s with
  | nil => simp
  | cons y rest ih =>
      rw [List.foldl_cons, ih, unloadVarStep_lv]
      by_cases hin : X ∈ rest
      · simp [hin]
      · by_cases hxy : X = y
        · simp [hin, hxy, mapDrop]
        · simp [hin, hxy, mapDrop]

theorem unloadFold_env (vars : List String) (s : MState) (X : String) :
    ((vars.foldl unloadVarStep s).env) X =
      if X ∈ vars then restoreVal (s.inner.original_env X) (s.env X) else s.env X := by
  induction vars generalizing s with
  | nil => simp
  | cons y rest ih =>
      rw [List.foldl_cons, ih, unloadVarStep_orig, unloadVarStep_env]
      by_cases hxy : X = y
      · subst hxy
        by_cases hin : X ∈ rest
        · simp [hin, restoreVal_idem]
        · simp [hin]
      · by_cases hin : X ∈ rest
        · simp [hin, hxy]
        · simp [hin, hxy]

theorem unloadInner_untracked (s : MState) (p : String)
    (h : alistGet s.inner.file_variables p = none) : unloadInner s p = s := by
  simp [unloadInner, h]

theorem unloadInner_tracked_env (s : MState) (p : String) (vars : List String) (X : String)
    (h : alistGet s.inner.file_variables p = some vars) :
    (unloadInner s p).env X =
      if X ∈ vars then restoreVal (s.inner.original_env X) (s.env X) else s.env X := by
  simp [unloadInner, h, unloadFold_env]

theorem unloadInner_tracked_lv (s : MState) (p : String) (vars : List String) (X : String)
    (h : alistGet s.inner.file_variables p = some vars) :
    (unloadInner s p).inner.loaded_variables X =
      if X ∈ vars then none else s.inner.loaded_variables X := by
  simp [unloadInner, h, unloadFold_lv]

theorem unloadInner_tracked_fv (s : MState) (p : String) (vars : List String)
    (h : alistGet s.inner.file_variables p = some vars) :
    (unloadInner s p).inner.file_variables = alistRemove s.inner.file_variables p := by
  simp [unloadInner, h, unloadFold_fv]

theorem unloadInner_orig (s : MState) (p : String) :
    (unloadInner s p).inner.original_env = s.inner.original_env := by
  cases h : alistGet s.inner.file_variables p with
  | some vars => simp [unloadInner, h, unloadFold_orig]
  | none => rw [unloadInner_untracked s p h]

theorem unloadInner_fv_self (s : MState) (p : String) :
    alistGet (unloadInner s p).inner.file_variables p = none := by
  cases h : alistGet s.inner.file_variables p with
  | some vars =>
      rw [unloadInner_tracked_fv s p vars h]
      exact alistGet_remove_self _ _
  | none => rw [unloadInner_untracked s p h, h]

/-! ### Characterisation of the iterator loop of `load_env_file` -/

theorem iterFold_env (p : String) (items : List IterItem) (a : LoadLoop) (X : String) :
    ((items.foldl (iterStep p) a).st.env) X =
      match lastValue X items with
      | some w => some w
      | none => a.st.env X := by
  induction items generalizing a with
  | nil => simp [lastValue]
  | cons it rest ih =>
      cases it with
      | pair k v =>
          rw [List.foldl_cons, ih]
          cases hr : lastValue X rest with
          | some w => simp [lastValue, hr]
          | none =>
              by_cases hk : k = X
              · subst hk
                simp [lastValue, hr, iterStep, mapSet]
              · have hx : X ≠ k := fun hq => hk hq.symm
                simp [lastValue, hr, hk, iterStep, mapSet, hx]
      | lineErr => simp [List.foldl_cons, iterStep, lastValue, ih]

theorem iterFold_lv (p : String) (items : List IterItem) (a : LoadLoop) (X : String) :
    ((items.foldl (iterStep p) a).st.inner.loaded_variables) X =
      if X ∈ pairKeys items then some p else a.st.inner.loaded_variables X := by
  induction items generalizing a with
  | nil => simp [pairKeys]
  | cons it rest ih =>
      cases it with
      | pair k v =>
          rw [List.foldl_cons, ih]
          by_cases hin : X ∈ pairKeys rest
          · simp [pairKeys, hin]
          · by_cases hxy : X = k
            · simp [pairKeys, hin, hxy, iterStep, mapSet]
            · simp [pairKeys, hin, hxy, iterStep, mapSet]
      | lineErr => simp [List.foldl_cons, iterStep, pairKeys, ih]

theorem iterFold_vars (p : String) (items : List IterItem) (a : LoadLoop) :
    (items.foldl (iterStep p) a).current_file_vars = varsAfter a.current_file_vars items := by
  induction items generalizing a with
  | nil => rfl
  | cons it rest ih =>
      cases it with
      | pair k v => rw [List.foldl_cons, ih]; rfl
      | lineErr => rw [List.foldl_cons, ih]; rfl

theorem iterFold_count (p : String) (items : List IterItem) (a : LoadLoop) :
    (items.foldl (iterStep p) a).loaded_count = a.loaded_count + countPairs items := by
  induction items generalizing a with
  | nil => simp [countPairs]
  | cons it rest ih =>
      cases it with
      | pair k v =>
          rw [List.foldl_cons, ih]
          simp [iterStep, countPairs]
          omega
      | lineErr => rw [List.foldl_cons, ih]; simp [iterStep, countPairs]

theorem iterFold_fv (p : String) (items : List IterItem) (a : LoadLoop) :
    (items.foldl (iterStep p) a).st.inner.file_variables = a.st.inner.file_variables := by
  induction items generalizing a with
  | nil => rfl
  | cons it rest ih =>
      cases it with
      | pair k v => rw [List.foldl_cons, ih]; rfl
      | lineErr => rw [List.foldl_cons, ih]; rfl

theorem iterFold_orig (p : String) (items : List IterItem) (a : LoadLoop) :
    (items.foldl (iterStep p) a).st.inner.original_env = a.st.inner.original_env := by
  induction items generalizing a with
  | nil => rfl
  | cons it rest ih =>
      cases it with
      | pair k v => rw [List.foldl_cons, ih]; rfl
      | lineErr => rw [List.foldl_cons, ih]; rfl

theorem mem_hsInsert (acc : List String) (k X : String) :
    X ∈ hsInsert acc k ↔ X ∈ acc ∨ X = k := by
  by_cases h : k ∈ acc
  · simp only [hsInsert, if_pos h]
    constructor
    · exact fun hx => Or.inl hx
    · rintro (hx | hx)
      · exact hx
      · exact hx ▸ h
  · simp [hsInsert, if_neg h]

theorem mem_varsAfter (items : List IterItem) (acc : List String) (X : String) :
    X ∈ varsAfter acc items ↔ X ∈ acc ∨ X ∈ pairKeys items := by
  induction items generalizing acc with
  | nil => simp [varsAfter, pairKeys]
  | cons it rest ih =>
      cases it with
      | pair k v =>
          simp only [varsAfter, pairKeys]
          rw [ih]
          rw [mem_hsInsert]
          simp [List.mem_cons]
          tauto
      | lineErr => simp only [varsAfter, pairKeys]; exact ih acc

/-! ### Characterisation of `load_env_file`, branch by branch -/

theorem load_missing_eq (fs : FS) (p : String) (s : MState)
    (h : (fs p).fexists = false) :
    load_env_file fs p s =
      (Except.ok 0,
        { unloadInner s p with inner :=
            { (unloadInner s p).inner with
                file_variables :=
                  alistRemove (unloadInner s p).inner.file_variables p } }) := by
  simp [load_env_file, h]

theorem load_ok_result (fs : FS) (p : String) (s : MState)
    (l1 : List (String × String)) (items : List IterItem)
    (h : fs p = { fexists := true, filenameRead := FilenameRead.ok l1,
                  iterRead := IterRead.ok items }) :
    (load_env_file fs p s).1 = Except.ok (countPairs items) := by
  simp [load_env_file, h, iterFold_count]

theorem load_ok_env (fs : FS) (p : String) (s : MState)
    (l1 : List (String × String)) (items : List IterItem) (X : String)
    (h : fs p = { fexists := true, filenameRead := FilenameRead.ok l1,
                  iterRead := IterRead.ok items }) :
    ((load_env_file fs p s).2).env X =
      match lastValue X items with
      | some w => some w
      | none => applyNonOverriding (unloadInner s p).env l1 X := by
  simp [load_env_file, h, iterFold_env]

theorem load_ok_lv (fs : FS) (p : String) (s : MState)
    (l1 : List (String × String)) (items : List IterItem) (X : String)
    (h : fs p = { fexists := true, filenameRead := FilenameRead.ok l1,
                  iterRead := IterRead.ok items }) :
    ((load_env_file fs p s).2).inner.loaded_variables X =
      if X ∈ pairKeys items then some p
      else (unloadInner s p).inner.loaded_variables X := by
  simp [load_env_file, h, iterFold_lv]

theorem load_ok_fv (fs : FS) (p : String) (s : MState)
    (l1 : List (String × String)) (items : List IterItem)
    (h : fs p = { fexists := true, filenameRead := FilenameRead.ok l1,
                  iterRead := IterRead.ok items }) :
    ((load_env_file fs p s).2).inner.file_variables =
      alistInsert (unloadInner s p).inner.file_variables p (varsAfter [] items) := by
  simp [load_env_file, h, iterFold_fv, iterFold_vars]

theorem load_parseErr_eq (fs : FS) (p : String) (s : MState)
    (pre : List (String × String)) (hex : (fs p).fexists = true)
    (h : (fs p).filenameRead = FilenameRead.parseErr pre) :
    load_env_file fs p s =
      (Except.ok 0,
        { env := applyNonOverriding (unloadInner s p).env pre
          inner :=
            { (unloadInner s p).inner with
                file_variables :=
                  alistInsert (unloadInner s p).inner.file_variables p [] } }) := by
  simp [load_env_file, hex, h]

theorem load_ioErr_eq (fs : FS) (p : String) (s : MState)
    (hex : (fs p).fexists = true)
    (h : (fs p).filenameRead = FilenameRead.ioErr) :
    load_env_file fs p s =
      (Except.ok 0,
        { unloadInner s p with inner :=
            { (unloadInner s p).inner with
                file_variables :=
                  alistInsert (unloadInner s p).inner.file_variables p [] } }) := by
  simp [load_env_file, hex, h]

theorem load_iterErr_eq (fs : FS) (p : String) (s : MState)
    (l1 : List (String × String)) (hex : (fs p).fexists = true)
    (h1 : (fs p).filenameRead = FilenameRead.ok l1)
    (h2 : (fs p).iterRead = IterRead.ioErr) :
    load_env_file fs p s =
      (Except.error ("Failed to read " ++ p),
        { unloadInner s p with env := applyNonOverriding (unloadInner s p).env l1 }) := by
  simp [load_env_file, hex, h1, h2]

theorem load_orig (fs : FS) (p : String) (s : MState) :
    ((load_env_file fs p s).2).inner.original_env = s.inner.original_env := by
  by_cases hex : (fs p).fexists = false
  · rw [load_missing_eq fs p s hex]
    exact unloadInner_orig s p
  · have hex' : (fs p).fexists = true := by
      cases hfe : (fs p).fexists
      · exact absurd hfe hex
      · rfl
    cases h1 : (fs p).filenameRead with
    | ok l1 =>
        cases h2 : (fs p).iterRead with
        | ok items =>
            have hfull : fs p = ⟨true, FilenameRead.ok l1, IterRead.ok items⟩ := by
              cases hfp : fs p
              rw [hfp] at hex' h1 h2
              simp at hex' h1 h2
              simp [hex', h1, h2]
            simp [load_env_file, hfull, iterFold_orig, unloadInner_orig]
        | ioErr =>
            rw [load_iterErr_eq fs p s l1 hex' h1 h2]
            exact unloadInner_orig s p
    | parseErr pre =>
        rw [load_parseErr_eq fs p s pre hex' h1]
        exact unloadInner_orig s p
    | ioErr =>
        rw [load_ioErr_eq fs p s hex' h1]
        exact unloadInner_orig s p

/-! ### Further helpers for the claim statements -/

theorem lastValue_pairItems (l : List (String × String)) (X : String) :
    lastValue X (pairItems l) = lastVal l X := by
  induction l with
  | nil => rfl
  | cons kv rest ih =>
      simp only [pairItems, List.map_cons, lastValue, lastVal]
      rw [show (List.map (fun kv => IterItem.pair kv.1 kv.2) rest) = pairItems rest from rfl,
        ih]

theorem pairKeys_pairItems (l : List (String × String)) :
    pairKeys (pairItems l) = l.map Prod.fst := by
  induction l with
  | nil => rfl
  | cons kv rest ih => simp only [pairItems, List.map_cons, pairKeys] at ih ⊢; rw [ih]

theorem lastVal_some_mem (l : List (String × String)) (X v : String)
    (h : lastVal l X = some v) : X ∈ l.map Prod.fst := by
  induction l with
  | nil => simp [lastVal] at h
  | cons kv rest ih =>
      simp only [lastVal] at h
      cases hr : lastVal rest X with
      | some w =>
          exact List.mem_cons_of_mem _ (ih (by rw [hr]; rw [hr] at h; exact h))
      | none =>
          rw [hr] at h
          by_cases hk : kv.1 = X
          · simp [List.map_cons, hk.symm]
          · simp [hk] at h

theorem lastValue_none_not_mem (items : List IterItem) (X : String)
    (h : lastValue X items = none) : X ∉ pairKeys items := by
  induction items with
  | nil => simp [pairKeys]
  | cons it rest ih =>
      cases it with
      | pair k v =>
          simp only [lastValue] at h
          cases hr : lastValue X rest with
          | some w => rw [hr] at h; exact absurd h (by simp)
          | none =>
              rw [hr] at h
              by_cases hk : k = X
              · rw [if_pos hk] at h; exact absurd h (by simp)
              · simp only [pairKeys, List.mem_cons]
                rintro (hx | hx)
                · exact hk hx.symm
                · exact ih hr hx
      | lineErr => simpa [lastValue, pairKeys] using ih h

theorem applyNonOverriding_eq_none (e : EnvMap) (l : List (String × String)) (X : String)
    (h : applyNonOverriding e l X = none) : e X = none ∧ firstVal l X = none := by
  cases he : e X with
  | some w =>
      rw [applyNonOverriding_some e l X w he] at h
      exact absurd h (by simp)
  | none => exact ⟨rfl, ((applyNonOverriding_none e l X he).symm.trans h)⟩

theorem prodEqOf {α β : Type} {a b : α × β} (h1 : a.1 = b.1) (h2 : a.2 = b.2) : a = b := by
  cases a; cases b; simp_all

theorem innerEqOf {a b : EnvManagerInner}
    (h1 : a.file_variables = b.file_variables)
    (h2 : a.loaded_variables = b.loaded_variables)
    (h3 : a.original_env = b.original_env) : a = b := by
  cases a; cases b; simp_all

theorem mstateEqOf {a b : MState} (h1 : a.env = b.env) (h2 : a.inner = b.inner) :
    a = b := by
  cases a; cases b; simp_all

theorem unloadInner_tracked_nil (t : MState) (p : String)
    (h : alistGet t.inner.file_variables p = some []) :
    unloadInner t p =
      { t with inner :=
          { t.inner with file_variables := alistRemove t.inner.file_variables p } } := by
  simp [unloadInner, h]

theorem load_missing_fixed (fs : FS) (p : String) (t : MState)
    (hex : (fs p).fexists = false)
    (hget : alistGet t.inner.file_variables p = none)
    (hrem : alistRemove t.inner.file_variables p = t.inner.file_variables) :
    load_env_file fs p t = (Except.ok 0, t) := by
  rw [load_missing_eq fs p t hex, unloadInner_untracked t p hget, hrem]

theorem batchStep_snd (fs : FS) (acc : Nat × MState) (p : String) :
    (batchStep fs acc p).2 = (load_env_file fs p acc.2).2 := by
  unfold batchStep
  cases h : load_env_file fs p acc.2 with
  | mk r s' => cases r <;> simp [h]

theorem batchStep_eq (fs : FS) (n : Nat) (s : MState) (p : String) :
    batchStep fs (n, s) p =
      (n + (match (load_env_file fs p s).1 with
            | Except.ok c => c
            | Except.error _ => 0),
        (load_env_file fs p s).2) := by
  unfold batchStep
  cases h : load_env_file fs p s with
  | mk r s' => cases r <;> simp [h]

theorem batchFold_eq (fs : FS) (l : List String) (n : Nat) (s : MState) :
    l.foldl (batchStep fs) (n, s) =
      (n + totalLoadedCount fs l s, stateAfterLoads fs l s) := by
  induction l generalizing n s with
  | nil => simp [totalLoadedCount, stateAfterLoads]
  | cons p rest ih =>
      rw [List.foldl_cons, batchStep_eq, ih]
      simp only [totalLoadedCount, stateAfterLoads]
      apply prodEqOf
      · simp
        omega
      · rfl

theorem cleanupFold_orig (l : List String) (s : MState) :
    ((l.foldl unloadInner s).inner.original_env) = s.inner.original_env := by
  induction l generalizing s with
  | nil => rfl
  | cons p rest ih => rw [List.foldl_cons, ih, unloadInner_orig]

theorem batchFold_orig (fs : FS) (l : List String) (acc : Nat × MState) :
    ((l.foldl (batchStep fs) acc).2).inner.original_env = acc.2.inner.original_env := by
  induction l generalizing acc with
  | nil => rfl
  | cons p rest ih =>
      rw [List.foldl_cons, ih, batchStep_snd, load_orig]

theorem alistInsert_remove_self (m : FileVars) (k : String) (v : List String) :
    alistInsert (alistRemove m k) k v = alistInsert m k v := by
  unfold alistInsert
  rw [alistRemove_remove_self]

theorem firstVal_not_mem (l : List (String × String)) (X : String)
    (h : X ∉ l.map Prod.fst) : firstVal l X = none := by
  induction l with
  | nil => rfl
  | cons kv rest ih =>
      simp only [List.map_cons, List.mem_cons] at h
      push_neg at h
      simp only [firstVal]
      rw [if_neg (fun hk => h.1 hk.symm)]
      exact ih h.2

theorem applyNonOverriding_not_mem (e : EnvMap) (l : List (String × String)) (X : String)
    (h : X ∉ l.map Prod.fst) : applyNonOverriding e l X = e X := by
  cases he : e X with
  | some w => exact applyNonOverriding_some e l X w he
  | none => rw [applyNonOverriding_none e l X he, firstVal_not_mem l X h]

/-! ### Fixpoint lemmas: a second identical load leaves the state alone -/

theorem load_parseErr_fixed (fs : FS) (p : String) (t : MState)
    (pre : List (String × String))
    (hex : (fs p).fexists = true) (h1 : (fs p).filenameRead = FilenameRead.parseErr pre)
    (hget : alistGet t.inner.file_variables p = some [])
    (henv : applyNonOverriding t.env pre = t.env)
    (hfv : alistInsert (alistRemove t.inner.file_variables p) p [] =
      t.inner.file_variables) :
    load_env_file fs p t = (Except.ok 0, t) := by
  rw [load_parseErr_eq fs p t pre hex h1, unloadInner_tracked_nil t p hget]
  apply prodEqOf
  · rfl
  · apply mstateEqOf
    · exact henv
    · exact innerEqOf hfv rfl rfl

theorem load_ioErr_fixed (fs : FS) (p : String) (t : MState)
    (hex : (fs p).fexists = true) (h1 : (fs p).filenameRead = FilenameRead.ioErr)
    (hget : alistGet t.inner.file_variables p = some [])
    (hfv : alistInsert (alistRemove t.inner.file_variables p) p [] =
      t.inner.file_variables) :
    load_env_file fs p t = (Except.ok 0, t) := by
  rw [load_ioErr_eq fs p t hex h1, unloadInner_tracked_nil t p hget]
  apply prodEqOf
  · rfl
  · apply mstateEqOf
    · rfl
    · exact innerEqOf hfv rfl rfl

theorem load_iterErr_fixed (fs : FS) (p : String) (t : MState)
    (l1 : List (String × String))
    (hex : (fs p).fexists = true) (h1 : (fs p).filenameRead = FilenameRead.ok l1)
    (h2 : (fs p).iterRead = IterRead.ioErr)
    (hget : alistGet t.inner.file_variables p = none)
    (henv : applyNonOverriding t.env l1 = t.env) :
    load_env_file fs p t = (Except.error ("Failed to read " ++ p), t) := by
  rw [load_iterErr_eq fs p t l1 hex h1 h2, unloadInner_untracked t p hget]
  apply prodEqOf
  · rfl
  · exact mstateEqOf henv rfl

theorem load_twice_okOk (fs : FS) (p : String) (s : MState)
    (l1 : List (String × String)) (items : List IterItem)
    (h : fs p = ⟨true, FilenameRead.ok l1, IterRead.ok items⟩) :
    load_env_file fs p ((load_env_file fs p s).2) = load_env_file fs p s := by
  have hfv1 : alistGet ((load_env_file fs p s).2).inner.file_variables p =
      some (varsAfter [] items) := by
    rw [load_ok_fv fs p s l1 items h]
    exact alistGet_insert_self _ _ _
  apply prodEqOf
  · rw [load_ok_result fs p _ l1 items h, load_ok_result fs p s l1 items h]
  · apply mstateEqOf
    · funext X
      rw [load_ok_env fs p _ l1 items X h, load_ok_env fs p s l1 items X h]
      cases hl : lastValue X items with
      | some w => rfl
      | none =>
          have hnot : X ∉ pairKeys items := lastValue_none_not_mem items X hl
          have hvars : X ∉ varsAfter [] items := by
            intro hmem
            rcases (mem_varsAfter items [] X).mp hmem with hc | hc
            · simp at hc
            · exact hnot hc
          have henv1 : (unloadInner ((load_env_file fs p s).2) p).env X =
              ((load_env_file fs p s).2).env X := by
            rw [unloadInner_tracked_env _ p (varsAfter [] items) X hfv1, if_neg hvars]
          have henvX : ((load_env_file fs p s).2).env X =
              applyNonOverriding (unloadInner s p).env l1 X := by
            rw [load_ok_env fs p s l1 items X h, hl]
          show applyNonOverriding (unloadInner ((load_env_file fs p s).2) p).env l1 X =
            applyNonOverriding (unloadInner s p).env l1 X
          cases hA : applyNonOverriding (unloadInner s p).env l1 X with
          | some w =>
              rw [applyNonOverriding_some _ l1 X w (by rw [henv1, henvX, hA])]
          | none =>
              have hE : (unloadInner ((load_env_file fs p s).2) p).env X = none := by
                rw [henv1, henvX, hA]
              rw [applyNonOverriding_none _ l1 X hE]
              exact (applyNonOverriding_eq_none _ l1 X hA).2
    · apply innerEqOf
      · rw [load_ok_fv fs p _ l1 items h, load_ok_fv fs p s l1 items h,
          unloadInner_tracked_fv _ p (varsAfter [] items) hfv1,
          load_ok_fv fs p s l1 items h, alistRemove_insert_self, alistInsert_remove_self]
      · funext X
        rw [load_ok_lv fs p _ l1 items X h, load_ok_lv fs p s l1 items X h]
        by_cases hk : X ∈ pairKeys items
        · rw [if_pos hk, if_pos hk]
        · rw [if_neg hk, if_neg hk]
          have hvars : X ∉ varsAfter [] items := by
            intro hmem
            rcases (mem_varsAfter items [] X).mp hmem with hc | hc
            · simp at hc
            · exact hk hc
          rw [unloadInner_tracked_lv _ p (varsAfter [] items) X hfv1, if_neg hvars,
            load_ok_lv fs p s l1 items X h, if_neg hk]
      · exact load_orig fs p _

/-! ### The claimed properties -/

/-- C10: calling the batch load operation with no list of file paths (the
`None` argument) returns 0 and leaves everything unchanged — the process
environment, the per-file ownership records, and the variable-to-source map
are all exactly as before the call. -/
theorem c10_batch_none_is_identity (fs : FS) (s : MState) :
    load_env_variables_from_env_files fs none s = (0, s) := rfl

/-- C9: the baseline snapshot equals the ambient environment captured at
manager initialisation, and no facade operation (single load, unload,
reload, batch load, or cleanup) ever changes the `original_env` mapping.
The read-only queries are pure functions of the state and mutate nothing by
construction. -/
theorem c9_baseline_never_mutated (fs : FS) (op : MOp) (s : MState) (e : EnvMap) :
    (applyOp fs op s).inner.original_env = s.inner.original_env ∧
      (initState e).inner.original_env = e := by
  refine ⟨?_, rfl⟩
  cases op with
  | load p => exact load_orig fs p s
  | unload p => exact unloadInner_orig s p
  | reload p => exact load_orig fs p s
  | batch ps =>
      cases ps with
      | none => rfl
      | some names =>
          show ((names.reverse.foldl (batchStep fs) (0, s)).2).inner.original_env = _
          exact batchFold_orig fs names.reverse (0, s)
  | clean => exact cleanupFold_orig _ s

/-- C6: the batch load never raises. For every ordered list of paths it
returns the sum of the counts of the loads that succeeded (an erroring file
contributes zero), and the resulting state is the one obtained by
processing every file of the (reversed) list in turn — a critical error
from one file does not stop the remaining files from being processed. -/
theorem c6_batch_never_raises (fs : FS) (paths : List String) (s : MState) :
    load_env_variables_from_env_files fs (some paths) s =
      (totalLoadedCount fs paths.reverse s, stateAfterLoads fs paths.reverse s) := by
  show paths.reverse.foldl (batchStep fs) (0, s) = _
  rw [batchFold_eq]
  simp

/-- C8: loading the same file twice in a row with unchanged contents yields
exactly the same result and state as loading it once — the same merged
table, the same owning-file assignments, and the same returned count. -/
theorem c8_double_load_idempotent (fs : FS) (p : String) (s : MState) :
    load_env_file fs p ((load_env_file fs p s).2) = load_env_file fs p s := by
  by_cases hex : (fs p).fexists = false
  · rw [load_missing_eq fs p s hex]
    exact load_missing_fixed fs p _ hex (alistGet_remove_self _ _)
      (alistRemove_remove_self _ _)
  · have hex' : (fs p).fexists = true := by
      cases hfe : (fs p).fexists
      · exact absurd hfe hex
      · rfl
    cases h1 : (fs p).filenameRead with
    | ok l1 =>
        cases h2 : (fs p).iterRead with
        | ok items =>
            have hfull : fs p = ⟨true, FilenameRead.ok l1, IterRead.ok items⟩ := by
              cases hfp : fs p
              rw [hfp] at hex' h1 h2
              simp at hex' h1 h2
              simp [hex', h1, h2]
            exact load_twice_okOk fs p s l1 items hfull
        | ioErr =>
            rw [load_iterErr_eq fs p s l1 hex' h1 h2]
            apply load_iterErr_fixed fs p _ l1 hex' h1 h2
            · exact unloadInner_fv_self s p
            · exact applyNonOverriding_idem _ l1
    | parseErr pre =>
        rw [load_parseErr_eq fs p s pre hex' h1]
        apply load_parseErr_fixed fs p _ pre hex' h1
        · exact alistGet_insert_self _ _ _
        · exact applyNonOverriding_idem _ pre
        · show alistInsert
            (alistRemove (alistInsert (unloadInner s p).inner.file_variables p []) p) p [] =
            alistInsert (unloadInner s p).inner.file_variables p []
          rw [alistRemove_insert_self, alistInsert_remove_self]
    | ioErr =>
        rw [load_ioErr_eq fs p s hex' h1]
        apply load_ioErr_fixed fs p _ hex' h1
        · exact alistGet_insert_self _ _ _
        · show alistInsert
            (alistRemove (alistInsert (unloadInner s p).inner.file_variables p []) p) p [] =
            alistInsert (unloadInner s p).inner.file_variables p []
          rw [alistRemove_insert_self, alistInsert_remove_self]

/-- C1: for files F1 and F2 that both define `X` (with possibly different
values), batch-loading `[F1, F2]` from a fresh manager leaves F1's value
for `X` in the process environment — the first file in the caller-supplied
list wins, because the list is iterated in reverse with overriding writes —
and `get_variable_source "X"` names F1. -/
theorem c1_first_listed_file_wins (fs : FS) (F1 F2 X v1 v2 : String)
    (l1 l2 : List (String × String)) (e0 : EnvMap)
    (hne : F1 ≠ F2)
    (h1 : fs F1 = goodFile l1) (h2 : fs F2 = goodFile l2)
    (hv1 : lastVal l1 X = some v1) (hv2 : lastVal l2 X = some v2)
    (hvv : v1 ≠ v2) :
    ((load_env_variables_from_env_files fs (some [F1, F2]) (initState e0)).2).env X =
        some v1 ∧
      get_variable_source
        ((load_env_variables_from_env_files fs (some [F1, F2]) (initState e0)).2) X =
        some F1 := by
  have hsnd : (load_env_variables_from_env_files fs (some [F1, F2]) (initState e0)).2 =
      (load_env_file fs F1 (batchStep fs (0, initState e0) F2).2).2 := by
    show (batchStep fs (batchStep fs (0, initState e0) F2) F1).2 = _
    rw [batchStep_snd]
  have h1' : fs F1 = (⟨true, FilenameRead.ok l1, IterRead.ok (pairItems l1)⟩ : FileSpec) :=
    h1
  have hmem : X ∈ pairKeys (pairItems l1) := by
    rw [pairKeys_pairItems]
    exact lastVal_some_mem l1 X v1 hv1
  constructor
  · rw [hsnd, load_ok_env fs F1 _ l1 (pairItems l1) X h1', lastValue_pairItems, hv1]
  · rw [hsnd]
    show (load_env_file fs F1 (batchStep fs (0, initState e0) F2).2).2.inner.loaded_variables
      X = some F1
    rw [load_ok_lv fs F1 _ l1 (pairItems l1) X h1', if_pos hmem]

/-- Witness for C1 at a concrete input: `fileA` defines `X=1`, `fileB`
defines `X=2`, the ambient environment is empty; after batch-loading
`[fileA, fileB]` the environment holds `X=1` and the recorded source of
`X` is `fileA`. -/
theorem c1_first_listed_file_wins_witness :
    (("fileA" : String) ≠ "fileB" ∧
      fsAB "fileA" = goodFile [("X", "1")] ∧
      fsAB "fileB" = goodFile [("X", "2")] ∧
      lastVal [("X", "1")] "X" = some "1" ∧
      lastVal [("X", "2")] "X" = some "2" ∧
      ("1" : String) ≠ "2") ∧
    (((load_env_variables_from_env_files fsAB (some ["fileA", "fileB"])
        (initState emptyEnv)).2).env "X" = some "1" ∧
      get_variable_source
        ((load_env_variables_from_env_files fsAB (some ["fileA", "fileB"])
          (initState emptyEnv)).2) "X" = some "fileA") :=
  ⟨⟨by decide, rfl, rfl, by decide, by decide, by decide⟩,
    c1_first_listed_file_wins fsAB "fileA" "fileB" "X" "1" "2" [("X", "1")] [("X", "2")]
      emptyEnv (by decide) rfl rfl (by decide) (by decide) (by decide)⟩

/-- C2: evaluation of the code at the failing input of the reversibility
claim. `FOO` is absent from the baseline and `cfg` defines `FOO=1`; after
`load(cfg)` then `unload(cfg)` the variable is still set to `"1"` instead
of being absent. The unload loop removes the variable from
`loaded_variables` before comparing, and `loaded_variables` stores source
paths rather than written values, so the removal condition degenerates to
`current == ""` and a nonempty value is never deleted. (The baseline-present
half of the claim does hold: see `unloadVarStep_env`, which restores
`original_env` values exactly.) -/
theorem c2_reversibility_failing_input :
    emptyEnv "FOO" = none ∧
      (unload_env_file "cfg"
        (load_env_file fsFoo "cfg" (initState emptyEnv)).2).env "FOO" = some "1" :=
  ⟨rfl, by decide⟩

/-- C4: evaluation of the code at the failing input of the missing-file
claim. `cfg` first loads `FOO=1` (`FOO` absent from the baseline); the file
is then deleted and loaded again. The load does return `Ok 0` and `cfg` is
no longer tracked in the ledger, but `FOO` is not released: it remains set
to `"1"` instead of being removed, because of the same unload defect shown
for C2. -/
theorem c4_missing_file_failing_input :
    (load_env_file fsGone "cfg" (load_env_file fsFoo "cfg" (initState emptyEnv)).2).1 =
        Except.ok 0 ∧
      get_variables_from_file
        (load_env_file fsGone "cfg" (load_env_file fsFoo "cfg" (initState emptyEnv)).2).2
        "cfg" = none ∧
      (load_env_file fsGone "cfg"
        (load_env_file fsFoo "cfg" (initState emptyEnv)).2).2.env "FOO" = some "1" :=
  ⟨rfl, by decide, by decide⟩

/-- C7 counterexample: a path that exists but cannot be opened or read by
the parser does not produce a critical error — `load` returns `Ok 0`, and
the ledger even records the path as contributing an (empty) set of
variables. The `from_filename` failure is only logged; the `return Err`
branch of the source is reachable only when `from_filename` succeeds and
the subsequent `from_path_iter` call fails. -/
theorem c7_unreadable_counterexample :
    (load_env_file fsU "bad" (initState emptyEnv)).1 = Except.ok 0 ∧
      get_variables_from_file (load_env_file fsU "bad" (initState emptyEnv)).2 "bad" =
        some [] :=
  ⟨rfl, by decide⟩

/-- C7 amended: for a path that exists but whose read by the parser fails,
`load` logs a warning and returns `Ok 0`; when the path was not previously
tracked, the process environment and the variable-to-source map are left
untouched and the only state change is a ledger entry recording the path
as owning no variables. -/
theorem c7_amended_unreadable_swallowed (fs : FS) (p : String) (s : MState)
    (hex : (fs p).fexists = true)
    (h1 : (fs p).filenameRead = FilenameRead.ioErr)
    (hget : alistGet s.inner.file_variables p = none) :
    load_env_file fs p s =
      (Except.ok 0,
        { s with inner :=
            { s.inner with
                file_variables := alistInsert s.inner.file_variables p [] } }) := by
  rw [load_ioErr_eq fs p s hex h1, unloadInner_untracked s p hget]

/-- Witness for the amended C7 at a concrete input: the unreadable path
`bad` on a fresh manager. -/
theorem c7_amended_unreadable_swallowed_witness :
    ((fsU "bad").fexists = true ∧
      (fsU "bad").filenameRead = FilenameRead.ioErr ∧
      alistGet (initState emptyEnv).inner.file_variables "bad" = none) ∧
    load_env_file fsU "bad" (initState emptyEnv) =
      (Except.ok 0,
        { initState emptyEnv with inner :=
            { (initState emptyEnv).inner with
                file_variables :=
                  alistInsert (initState emptyEnv).inner.file_variables "bad" [] } }) :=
  ⟨⟨rfl, rfl, rfl⟩,
    c7_amended_unreadable_swallowed fsU "bad" (initState emptyEnv) rfl rfl rfl⟩

/-- C3 counterexample: `X` is present in the baseline as `orig`; `fx` loads
`X=v1`; external code then sets `X=v2`. `unload(fx)` does not leave the
externally written value in place — it overwrites `X` back to the baseline
value `orig`, because baseline names are restored unconditionally. -/
theorem c3_external_change_counterexample :
    (unload_env_file "fx"
        { (load_env_file fsX "fx" (initState baseEnvX)).2 with
            env := mapSet ((load_env_file fsX "fx" (initState baseEnvX)).2).env
              "X" "v2" }).env "X" ≠ some "v2" ∧
      (unload_env_file "fx"
        { (load_env_file fsX "fx" (initState baseEnvX)).2 with
            env := mapSet ((load_env_file fsX "fx" (initState baseEnvX)).2).env
              "X" "v2" }).env "X" = some "orig" :=
  ⟨by decide, by decide⟩

/-- C3 amended: the non-clobber guarantee holds only for variables absent
from the baseline snapshot and only while the live value is nonempty: for
any state in which `X` is not in `original_env` and the live value of `X`
is some nonempty string (externally changed or not), `unload(F)` leaves
`X`'s live value untouched. Baseline-present names are restored to the
baseline unconditionally, and an externally written empty string is
deleted. -/
theorem c3_amended_nonclobber (s : MState) (F X w : String)
    (horig : s.inner.original_env X = none)
    (hcur : s.env X = some w) (hw : w ≠ "") :
    (unload_env_file F s).env X = some w := by
  show (unloadInner s F).env X = some w
  cases hg : alistGet s.inner.file_variables F with
  | none => rw [unloadInner_untracked s F hg]; exact hcur
  | some vars =>
      rw [unloadInner_tracked_env s F vars X hg]
      by_cases hin : X ∈ vars
      · rw [if_pos hin, horig, hcur]
        simp [restoreVal, hw]
      · rw [if_neg hin]; exact hcur

/-- Witness for the amended C3 at a concrete input: the manager owns `Y`
(loaded from `g`, absent from the baseline) and the live value is `b`. -/
theorem c3_amended_nonclobber_witness :
    (sW.inner.original_env "Y" = none ∧ sW.env "Y" = some "b" ∧ ("b" : String) ≠ "") ∧
      (unload_env_file "g" sW).env "Y" = some "b" :=
  ⟨⟨rfl, by decide, by decide⟩,
    c3_amended_nonclobber sW "g" "Y" "b" rfl (by decide) (by decide)⟩

/-- C5 counterexample: after batch-loading `[f1, f2]` (with `f1` defining
`A=1`, absent from the empty baseline) and then batch-loading only `[f2]`,
the variable `A`, uniquely owned by `f1`, is not released: it is still set
to `1`, still attributed to `f1`, and `f1` is still tracked. The batch load
has no "pending removal" set and never unloads paths missing from the new
list. -/
theorem c5_no_supersession_counterexample :
    (load_env_variables_from_env_files fsTwo (some ["f2"])
        (load_env_variables_from_env_files fsTwo (some ["f1", "f2"])
          (initState emptyEnv)).2).2.env "A" = some "1" ∧
      get_variable_source
        (load_env_variables_from_env_files fsTwo (some ["f2"])
          (load_env_variables_from_env_files fsTwo (some ["f1", "f2"])
            (initState emptyEnv)).2).2 "A" = some "f1" ∧
      emptyEnv "A" = none :=
  ⟨by decide, by decide, rfl⟩

/-- C5 amended: the batch load touches only the paths in the supplied list;
previously tracked paths absent from the list are not implicitly unloaded.
After loading `[F1, F2]` from a fresh manager and then batch-loading only
`[F2]`, every variable uniquely owned by F1 keeps F1's value in the
process environment, keeps F1 as its recorded source, and F1 stays in the
ledger with its variable set. -/
theorem c5_amended_no_implicit_unload (fs : FS) (F1 F2 X1 v1 X2 v2 : String) (e0 : EnvMap)
    (hne : F1 ≠ F2) (hx : X1 ≠ X2)
    (h1 : fs F1 = goodFile [(X1, v1)]) (h2 : fs F2 = goodFile [(X2, v2)]) :
    ((load_env_variables_from_env_files fs (some [F2])
        ((load_env_variables_from_env_files fs (some [F1, F2]) (initState e0)).2)).2).env
        X1 = some v1 ∧
      get_variable_source
        ((load_env_variables_from_env_files fs (some [F2])
          ((load_env_variables_from_env_files fs (some [F1, F2]) (initState e0)).2)).2)
        X1 = some F1 ∧
      get_variables_from_file
        ((load_env_variables_from_env_files fs (some [F2])
          ((load_env_variables_from_env_files fs (some [F1, F2]) (initState e0)).2)).2)
        F1 = some [X1] := by
  have h1' : fs F1 = (⟨true, FilenameRead.ok [(X1, v1)],
      IterRead.ok [IterItem.pair X1 v1]⟩ : FileSpec) := h1
  have h2' : fs F2 = (⟨true, FilenameRead.ok [(X2, v2)],
      IterRead.ok [IterItem.pair X2 v2]⟩ : FileSpec) := h2
  have hne' : F2 ≠ F1 := Ne.symm hne
  have hx' : X2 ≠ X1 := Ne.symm hx
  have hlast2 : lastValue X1 [IterItem.pair X2 v2] = none := by
    show (if X2 = X1 then some v2 else none) = none
    exact if_neg hx'
  have hlast1 : lastValue X1 [IterItem.pair X1 v1] = some v1 := by
    show (if X1 = X1 then some v1 else none) = some v1
    exact if_pos rfl
  have hkeys2 : X1 ∉ pairKeys [IterItem.pair X2 v2] := by
    simp [pairKeys, hx]
  have hkeys1 : X1 ∈ pairKeys [IterItem.pair X1 v1] := by
    simp [pairKeys]
  have hmap2 : X1 ∉ ([(X2, v2)] : List (String × String)).map Prod.fst := by
    simp [hx]
  have hvars2 : varsAfter [] [IterItem.pair X2 v2] = [X2] := rfl
  have hvars1 : varsAfter [] [IterItem.pair X1 v1] = [X1] := rfl
  have hmem2 : X1 ∉ ([X2] : List String) := by simp [hx]
  have hb1 : (load_env_variables_from_env_files fs (some [F1, F2]) (initState e0)).2 =
      (load_env_file fs F1 ((load_env_file fs F2 (initState e0)).2)).2 := by
    show (batchStep fs (batchStep fs (0, initState e0) F2) F1).2 = _
    rw [batchStep_snd, batchStep_snd]
  have hu0 : unloadInner (initState e0) F2 = initState e0 :=
    unloadInner_untracked _ _ rfl
  have sa_fv : ((load_env_file fs F2 (initState e0)).2).inner.file_variables =
      [(F2, [X2])] := by
    rw [load_ok_fv fs F2 (initState e0) [(X2, v2)] [IterItem.pair X2 v2] h2', hu0,
      hvars2]
    rfl
  have hgetF1 : alistGet ((load_env_file fs F2 (initState e0)).2).inner.file_variables
      F1 = none := by
    rw [sa_fv, alistGet_cons, if_neg hne']
    rfl
  have hu1 : unloadInner ((load_env_file fs F2 (initState e0)).2) F1 =
      (load_env_file fs F2 (initState e0)).2 :=
    unloadInner_untracked _ _ hgetF1
  have s1_env : (((load_env_file fs F1 ((load_env_file fs F2 (initState e0)).2)).2)).env
      X1 = some v1 := by
    rw [load_ok_env fs F1 _ [(X1, v1)] [IterItem.pair X1 v1] X1 h1', hlast1]
  have s1_lv : (((load_env_file fs F1
      ((load_env_file fs F2 (initState e0)).2)).2)).inner.loaded_variables X1 =
      some F1 := by
    rw [load_ok_lv fs F1 _ [(X1, v1)] [IterItem.pair X1 v1] X1 h1', if_pos hkeys1]
  have s1_fv : (((load_env_file fs F1
      ((load_env_file fs F2 (initState e0)).2)).2)).inner.file_variables =
      alistInsert [(F2, [X2])] F1 [X1] := by
    rw [load_ok_fv fs F1 _ [(X1, v1)] [IterItem.pair X1 v1] h1', hu1, hvars1, sa_fv]
  have s1_fv_F2 : alistGet (((load_env_file fs F1
      ((load_env_file fs F2 (initState e0)).2)).2)).inner.file_variables F2 =
      some [X2] := by
    rw [s1_fv, alistGet_insert_ne _ F1 F2 _ hne', alistGet_cons, if_pos rfl]
  have s1_fv_F1 : alistGet (((load_env_file fs F1
      ((load_env_file fs F2 (initState e0)).2)).2)).inner.file_variables F1 =
      some [X1] := by
    rw [s1_fv]
    exact alistGet_insert_self _ _ _
  have hb2 : ∀ t : MState, (load_env_variables_from_env_files fs (some [F2]) t).2 =
      (load_env_file fs F2 t).2 := by
    intro t
    show (batchStep fs (0, t) F2).2 = _
    rw [batchStep_snd]
  rw [hb1] at *
  set s1 : MState := (load_env_file fs F1 ((load_env_file fs F2 (initState e0)).2)).2 with hs1
  have u2_env : (unloadInner s1 F2).env X1 = some v1 := by
    rw [unloadInner_tracked_env s1 F2 [X2] X1 s1_fv_F2, if_neg hmem2]
    exact s1_env
  have u2_lv : (unloadInner s1 F2).inner.loaded_variables X1 = some F1 := by
    rw [unloadInner_tracked_lv s1 F2 [X2] X1 s1_fv_F2, if_neg hmem2]
    exact s1_lv
  have u2_fv : alistGet (unloadInner s1 F2).inner.file_variables F1 = some [X1] := by
    rw [unloadInner_tracked_fv s1 F2 [X2] s1_fv_F2, alistGet_remove_ne _ F2 F1 hne]
    exact s1_fv_F1
  refine ⟨?_, ?_, ?_⟩
  · rw [hb2 s1, load_ok_env fs F2 s1 [(X2, v2)] [IterItem.pair X2 v2] X1 h2', hlast2]
    rw [applyNonOverriding_not_mem _ _ X1 hmap2]
    exact u2_env
  · show ((load_env_variables_from_env_files fs (some [F2]) s1).2).inner.loaded_variables
      X1 = some F1
    rw [hb2 s1, load_ok_lv fs F2 s1 [(X2, v2)] [IterItem.pair X2 v2] X1 h2',
      if_neg hkeys2]
    exact u2_lv
  · show alistGet ((load_env_variables_from_env_files fs (some [F2])
      s1).2).inner.file_variables F1 = some [X1]
    rw [hb2 s1, load_ok_fv fs F2 s1 [(X2, v2)] [IterItem.pair X2 v2] h2', hvars2,
      alistGet_insert_ne _ F2 F1 _ hne]
    exact u2_fv

/-- Witness for the amended C5 at a concrete input: `f1` defines `A=1`,
`f2` defines `B=2`, loaded over an empty ambient environment. -/
theorem c5_amended_no_implicit_unload_witness :
    (("f1" : String) ≠ "f2" ∧ ("A" : String) ≠ "B" ∧
      fsTwo "f1" = goodFile [("A", "1")] ∧ fsTwo "f2" = goodFile [("B", "2")]) ∧
    (((load_env_variables_from_env_files fsTwo (some ["f2"])
        ((load_env_variables_from_env_files fsTwo (some ["f1", "f2"])
          (initState emptyEnv)).2)).2).env "A" = some "1" ∧
      get_variable_source
        ((load_env_variables_from_env_files fsTwo (some ["f2"])
          ((load_env_variables_from_env_files fsTwo (some ["f1", "f2"])
            (initState emptyEnv)).2)).2) "A" = some "f1" ∧
      get_variables_from_file
        ((load_env_variables_from_env_files fsTwo (some ["f2"])
          ((load_env_variables_from_env_files fsTwo (some ["f1", "f2"])
            (initState emptyEnv)).2)).2) "f1" = some ["A"]) :=
  ⟨⟨by decide, by decide, rfl, rfl⟩,
    c5_amended_no_implicit_unload fsTwo "f1" "f2" "A" "1" "B" "2" emptyEnv
      (by decide) (by decide) rfl rfl⟩
